import Mathlib

/-!
Verification development for the reflection pipeline application
(`cot_reflection_app_v1.py`).

The file shallowly embeds the program's operations:

* the thinking-tag extraction performed inside `process_question`
  (a non-greedy, DOTALL regex search for the first
  `<thinking>...</thinking>` span followed by `strip()`);
* the `process_question` pipeline itself, parametric in the imported
  collaborators (`AVAILABLE_MODELS`, `get_model_response`,
  `cot_reflection`, document reading), with an explicit log of the
  model-backend calls it issues;
* `load_snapshot_by_id`, parametric in the database lookup;
* a snapshot store modelled from the specification (the `db_utils`
  module is not part of the provided sources).
-/

namespace Reflection

/-! ### Substring search

`findSub pat s` returns the index of the first occurrence of `pat` in
`s`, scanning left to right, exactly as a regular-expression engine
locates the leftmost match of a literal pattern. -/

/-- Index of the first occurrence of `pat` as a contiguous sublist of
`s`, if any. -/
def findSub (pat : List Char) (s : List Char) : Option Nat :=
  if pat.isPrefixOf s then some 0
  else
    match s with
    | [] => none
    | _ :: t => (findSub pat t).map (· + 1)

/-- `pat` occurs somewhere inside `s` as a contiguous sublist. -/
def subOf (pat s : List Char) : Prop :=
  ∃ i, pat <+: s.drop i

/-! ### Python-style whitespace stripping

`str.strip()` removes the characters Python classifies as whitespace
from both ends of a string; for the ASCII range these are space, tab,
newline, carriage return, vertical tab and form feed. -/

/-- Characters removed by Python's `str.strip()` (ASCII range). -/
def pySpace (c : Char) : Bool :=
  c = ' ' || c = '\t' || c = '\n' || c = '\r' || c = '\x0b' || c = '\x0c'

/-- Python's `str.strip()` on a character list. -/
def pyStrip (l : List Char) : List Char :=
  ((l.dropWhile pySpace).reverse.dropWhile pySpace).reverse

/-! ### Thinking-tag extraction

`process_question` (lines 87-89) runs
`re.search(r'<thinking>(.*?)</thinking>', thinking, re.DOTALL)` and
keeps `match.group(1).strip()` when a match exists, falling back to the
unmodified input otherwise.  The leftmost-match, non-greedy semantics
of that pattern are: find the first index where `<thinking>` occurs
and, after it, the first index where `</thinking>` occurs; the group
is the text strictly between the two tags. -/

/-- The literal opening delimiter `<thinking>`. -/
def thinkingOpen : List Char := "<thinking>".data

/-- The literal closing delimiter `</thinking>`. -/
def thinkingClose : List Char := "</thinking>".data

/-- First-span extraction for a pair of literal delimiters, mirroring a
non-greedy DOTALL regex search followed by `strip()`: returns the
trimmed inner content of the first well-formed span together with
`true`, or the input unchanged together with `false`. -/
def extractFirstSpan (openTag closeTag text : List Char) :
    List Char × Bool :=
  match findSub openTag text with
  | none => (text, false)
  | some i =>
    let rest := text.drop (i + openTag.length)
    match findSub closeTag rest with
    | none => (text, false)
    | some j => (pyStrip (rest.take j), true)

/-- The thinking-tag extraction performed inside `process_question`. -/
def extractThinking (text : List Char) : List Char × Bool :=
  extractFirstSpan thinkingOpen thinkingClose text

/-! ### The `process_question` pipeline

`process_question(file, user_prompt, system_prompt, cot_prompt,
selected_model, use_default_cot)` returns a 7-tuple that the interface
routes, in order, to the user-prompt, initial-response, thinking,
reflection and final-output boxes, then back to the system-prompt and
chain-of-thought prompt boxes.  The imported collaborators are
embedded as parameters:

* the registry is the key set of `AVAILABLE_MODELS`;
* `get_model_response` is a function from model name and prompt to a
  response or an error message (the text of the raised exception);
* `cot_reflection` (from `cot_reflection_file`, not under the provided
  sources) is an oracle returning either a `(thinking, reflection,
  output)` triple or an error message, together with the list of
  backend calls it issued.

The embedding also returns the list of `(model, prompt)` backend calls
made directly by `process_question`, so that claims about when the
backend is contacted can be stated. -/

/-- The 7-tuple returned by `process_question`, with named positions.
Positions 6 and 7 are `None` on the error path (and position 7 also in
direct mode), hence `Option String`. -/
structure PipelineOutput where
  userPrompt : String
  initialResponse : String
  thinking : String
  reflection : String
  finalOutput : String
  systemPromptEcho : Option String
  cotPromptEcho : Option String
deriving Repr, DecidableEq

/-- Behaviour of `get_model_response`: response text or the message of
the exception it raised. -/
abbrev Gateway := String → String → Except String String

/-- Behaviour of `cot_reflection(system_prompt, cot_prompt, question,
document_content, model_name)`: a `(thinking, reflection, output)`
triple or the message of the exception it raised, paired with the
backend calls it performed. -/
abbrev CotFn := String → String → String → Option String → String →
  Except String (String × String × String) × List (String × String)

/-- Message of the `ValueError` raised when document reading fails. -/
def docReadErrorMsg : String :=
  "Error reading document. Please ensure it's a valid PDF or DOCX file."

/-- Outcome of the document-reading block (lines 52-66): no file gives
no content, a readable file gives its extracted text, an unreadable
file raises a `ValueError` with a fixed message. -/
def readDocument (file : Option (Option String)) :
    Except String (Option String) :=
  match file with
  | none => .ok none
  | some (some text) => .ok (some text)
  | some none => .error docReadErrorMsg

/-- The `doc_content` string of line 69: empty when there is no
document content (Python truthiness also treats empty text as no
content), otherwise a labelled block. -/
def docBlock (documentContent : Option String) : String :=
  match documentContent with
  | some s => if s = "" then "" else "Document Content:\n" ++ s ++ "\n\n"
  | none => ""

/-- The unreasoned prompt built on lines 73-75. -/
def initialResponsePrompt (systemPrompt docContent userPrompt : String) :
    String :=
  systemPrompt ++ "\n\n" ++ docContent ++ "Question: " ++ userPrompt
    ++ "\n\nProvide a concise answer to this question without any explanation or reasoning."

/-- The direct-mode prompt built on lines 96-98. -/
def directResponsePrompt (systemPrompt docContent userPrompt : String) :
    String :=
  systemPrompt ++ "\n\n" ++ docContent ++ "Question: " ++ userPrompt
    ++ "\n\nAnalyze the question and provide a comprehensive answer."

/-- The tuple returned by the `except` clause on line 106. -/
def errorOutput (userPrompt msg : String) : PipelineOutput :=
  ⟨userPrompt, "An error occurred: " ++ msg, "", "", "", none, none⟩

/-- Shallow embedding of `process_question` (lines 31-106), paired
with the list of backend calls issued. -/
def processQuestion (registry : List String) (gw : Gateway)
    (cotRefl : CotFn) (file : Option (Option String))
    (userPrompt systemPrompt cotPrompt selectedModel : String)
    (useDefaultCot : Bool) :
    PipelineOutput × List (String × String) :=
  if selectedModel ∉ registry then
    (errorOutput userPrompt ("Invalid model selected: " ++ selectedModel), [])
  else
    match readDocument file with
    | .error e => (errorOutput userPrompt e, [])
    | .ok documentContent =>
      let dc := docBlock documentContent
      if useDefaultCot then
        let p1 := initialResponsePrompt systemPrompt dc userPrompt
        match gw selectedModel p1 with
        | .error e => (errorOutput userPrompt e, [(selectedModel, p1)])
        | .ok initialResponse =>
          match cotRefl systemPrompt cotPrompt userPrompt documentContent
              selectedModel with
          | (.error e, calls) =>
            (errorOutput userPrompt e, (selectedModel, p1) :: calls)
          | (.ok (thinking, reflection, output), calls) =>
            let actualThinking := String.mk (extractThinking thinking.data).1
            (⟨userPrompt, initialResponse, actualThinking, reflection,
              output, some systemPrompt, some cotPrompt⟩,
             (selectedModel, p1) :: calls)
      else
        let p := directResponsePrompt systemPrompt dc userPrompt
        match gw selectedModel p with
        | .error e => (errorOutput userPrompt e, [(selectedModel, p)])
        | .ok directResponse =>
          (⟨userPrompt, directResponse, "", "", "", some systemPrompt, none⟩,
           [(selectedModel, p)])

/-! ### Parsing an id the way Python's `int()` does

`load_snapshot_by_id` calls `int(snapshot_id)` on a string.  Python's
`int()` strips surrounding whitespace, accepts an optional sign, then
decimal digits optionally separated by single underscores; anything
else raises `ValueError`. -/

/-- Value of a single decimal digit, if the character is one. -/
def digitVal (c : Char) : Option Nat :=
  if '0' ≤ c ∧ c ≤ '9' then some (c.toNat - '0'.toNat) else none

/-- Continuation of the digit parser: after at least one digit has
been read, consume further digits, each optionally preceded by one
underscore. -/
def pyDigitsRest (acc : Nat) : List Char → Option Nat
  | [] => some acc
  | '_' :: c :: t =>
    match digitVal c with
    | some d => pyDigitsRest (acc * 10 + d) t
    | none => none
  | c :: t =>
    match digitVal c with
    | some d => pyDigitsRest (acc * 10 + d) t
    | none => none

/-- Unsigned decimal digits with optional single underscores between
them, as accepted by Python's `int()`. -/
def pyDigits : List Char → Option Nat
  | [] => none
  | c :: t =>
    match digitVal c with
    | some d => pyDigitsRest d t
    | none => none

/-- Python's `int()` on a string: surrounding whitespace stripped,
optional sign, then digits; `none` models the `ValueError` branch. -/
def pyInt (s : String) : Option Int :=
  match pyStrip s.data with
  | '+' :: rest => (pyDigits rest).map Int.ofNat
  | '-' :: rest => (pyDigits rest).map (fun n => -(Int.ofNat n))
  | rest => (pyDigits rest).map Int.ofNat

/-! ### `load_snapshot_by_id`

The database record is a dictionary read with `.get(key, "")`; it is
embedded as a structure of the nine text fields the loader extracts
plus the tag list (the latter is used by the snapshot store below).
The database lookup `db.get_snapshot_by_id` lives in `db_utils`, which
is not part of the provided sources, so the loader is parametric in
it. -/

/-- The fields of one persisted snapshot record, exactly those passed
to `save_snapshot` by the save handler (lines 308-320). -/
structure SnapRecord where
  snapshot_name : String
  user_prompt : String
  system_prompt : String
  model_name : String
  cot_prompt : String
  initial_response : String
  thinking : String
  reflection : String
  final_response : String
  tags : String
deriving Repr, DecidableEq

/-- Status text for an empty id. -/
def loadMsgEmpty : String := "Please enter a snapshot ID to load"

/-- Status text for a non-numeric id. -/
def loadMsgInvalid : String := "Invalid Snapshot ID. Please enter a numeric ID."

/-- Status text when the lookup misses. -/
def loadMsgNotFound : String := "Snapshot not found"

/-- Status text when the lookup succeeds. -/
def loadMsgSuccess : String := "✓ Snapshot loaded successfully"

/-- Shallow embedding of `load_snapshot_by_id` (lines 108-149),
parametric in the database lookup `g`.  The returned list holds the
nine component values followed by the status message. -/
def loadSnapshotById (g : Int → Option SnapRecord) (snapshotId : String) :
    List (Option String) :=
  if snapshotId = "" then
    List.replicate 9 none ++ [some loadMsgEmpty]
  else
    match pyInt snapshotId with
    | none => List.replicate 9 none ++ [some loadMsgInvalid]
    | some n =>
      match g n with
      | none => List.replicate 9 none ++ [some loadMsgNotFound]
      | some s =>
        [some s.snapshot_name, some s.user_prompt, some s.system_prompt,
         some s.model_name, some s.cot_prompt, some s.initial_response,
         some s.thinking, some s.reflection, some s.final_response,
         some loadMsgSuccess]

/-! ### The snapshot store

The `db_utils` module implementing `SnapshotDB` is not part of the
provided sources; only its callers are.  The store below is therefore
modelled from the specification (section 4.4 and the data-model
section): a surrogate integer id assigned by the store, monotonically
increasing and never reused; a creation timestamp assigned by the
store; records immutable once created and destroyed only by delete;
lookup, substring search over name/question/tags, delete and
export. -/

/-- Modelled from the spec: one persisted snapshot of `db_utils`'
store — the store-assigned surrogate id and creation timestamp plus
the full saved record. -/
structure StoredSnap where
  id : Nat
  created_at : Nat
  content : SnapRecord
deriving Repr, DecidableEq

/-- Modelled from the spec: the state of `db_utils.SnapshotDB`, which
is absent from the sources — the next id to assign, a store clock used
to stamp creation times, and the stored rows in creation order. -/
structure SnapshotDB where
  nextId : Nat
  clock : Nat
  rows : List StoredSnap
deriving Repr, DecidableEq

/-- Modelled from the spec: a freshly initialised store, before any
save; ids start at 1 (the interface treats ids as positive). -/
def SnapshotDB.empty : SnapshotDB := ⟨1, 0, []⟩

/-- Modelled from the spec: `save(record) -> id` assigns the next
identifier and a fresh creation timestamp, persists every field of the
record, and returns the new id; the identifier counter only ever
grows, so ids are never reused. -/
def save_snapshot (db : SnapshotDB) (r : SnapRecord) : Nat × SnapshotDB :=
  (db.nextId,
   ⟨db.nextId + 1, db.clock + 1,
    db.rows ++ [⟨db.nextId, db.clock + 1, r⟩]⟩)

/-- Modelled from the spec: `get_by_id(id) -> record | not_found`;
`not_found` is the `none` value, a normal outcome. -/
def get_snapshot_by_id (db : SnapshotDB) (i : Nat) : Option StoredSnap :=
  db.rows.find? (fun r => r.id == i)

/-- Modelled from the spec: `delete(id) -> deleted: bool` removes the
record if present and reports whether anything was removed; deleting a
missing id returns `false`, not an error. -/
def delete_snapshot (db : SnapshotDB) (i : Nat) : Bool × SnapshotDB :=
  (db.rows.any (fun r => r.id == i),
   ⟨db.nextId, db.clock, db.rows.filter (fun r => r.id != i)⟩)

/-- Modelled from the spec: `export(id)` returns the complete
persisted record for the id, or `not_found`. -/
def export_snapshot (db : SnapshotDB) (i : Nat) : Option StoredSnap :=
  get_snapshot_by_id db i

/-- Characters of a string lowered for case-insensitive comparison. -/
def lowerData (s : String) : List Char := s.data.map Char.toLower

/-- Case-insensitive substring test. -/
def containsCI (hay term : String) : Bool :=
  (findSub (lowerData term) (lowerData hay)).isSome

/-- Modelled from the spec: a snapshot matches a search term when its
name, question or tag list contains the term as a case-insensitive
substring. -/
def snapMatches (term : String) (r : StoredSnap) : Bool :=
  containsCI r.content.snapshot_name term
    || containsCI r.content.user_prompt term
    || containsCI r.content.tags term

/-- Modelled from the spec: `list(search_term)` — all snapshots when
the term is empty, otherwise only the matching ones, ordered by
creation time descending (rows are kept in creation order, so
newest-first is the reverse). -/
def get_snapshots (db : SnapshotDB) (term : String) : List StoredSnap :=
  (if term = "" then db.rows else db.rows.filter (snapMatches term)).reverse

/-- One lifetime of the store is a sequence of save and delete
operations. -/
inductive StoreOp where
  | save (r : SnapRecord)
  | delete (i : Nat)

/-- State reached after one operation. -/
def applyOp (db : SnapshotDB) : StoreOp → SnapshotDB
  | .save r => (save_snapshot db r).2
  | .delete i => (delete_snapshot db i).2

/-- State reached after a sequence of operations. -/
def runOps (db : SnapshotDB) : List StoreOp → SnapshotDB
  | [] => db
  | op :: ops => runOps (applyOp db op) ops

/-- The ids handed out by the `save` operations of a sequence, in
order. -/
def savedIds (db : SnapshotDB) : List StoreOp → List Nat
  | [] => []
  | .save r :: ops =>
    (save_snapshot db r).1 :: savedIds (applyOp db (.save r)) ops
  | .delete i :: ops => savedIds (applyOp db (.delete i)) ops

/-- Store well-formedness: every stored id is below the id counter,
every stamp is at or below the clock, and rows are strictly increasing
in both id and creation time. -/
def StoreWF (db : SnapshotDB) : Prop :=
  (∀ r ∈ db.rows, r.id < db.nextId) ∧
  (∀ r ∈ db.rows, r.created_at ≤ db.clock) ∧
  db.rows.Pairwise (fun x y => x.id < y.id) ∧
  db.rows.Pairwise (fun x y => x.created_at < y.created_at)

theorem findSub_eq_some (pat : List Char) :
    ∀ (s : List Char) (i : Nat), findSub pat s = some i →
      pat <+: s.drop i ∧ ∀ j, j < i → ¬ pat <+: s.drop j := by
  intro s
  induction s with
  | nil =>
    intro i h
    unfold findSub at h
    by_cases hp : pat.isPrefixOf [] = true
    · simp [hp] at h
      subst h
      refine ⟨?_, by omega⟩
      simpa [List.isPrefixOf_iff_prefix] using hp
    · simp [hp] at h
  | cons x t ih =>
    intro i h
    unfold findSub at h
    by_cases hp : pat.isPrefixOf (x :: t) = true
    · simp [hp] at h
      subst h
      refine ⟨?_, by omega⟩
      simpa [List.isPrefixOf_iff_prefix] using hp
    · simp [hp] at h
      obtain ⟨i', hi', rfl⟩ := h
      obtain ⟨h1, h2⟩ := ih i' hi'
      refine ⟨by simpa using h1, ?_⟩
      intro j hj
      cases j with
      | zero =>
        simp only [List.drop_zero]
        intro hpre
        exact hp (by simpa [List.isPrefixOf_iff_prefix] using hpre)
      | succ k =>
        simpa using h2 k (by omega)

theorem findSub_eq_none (pat : List Char) :
    ∀ (s : List Char), findSub pat s = none →
      ∀ j, ¬ pat <+: s.drop j := by
  intro s
  induction s with
  | nil =>
    intro h j
    unfold findSub at h
    by_cases hp : pat.isPrefixOf [] = true
    · simp [hp] at h
    · intro hpre
      have : pat.isPrefixOf [] = true := by
        have : (j : Nat) → List.drop j ([] : List Char) = [] := by
          intro j; simp
        rw [this j] at hpre
        simpa [List.isPrefixOf_iff_prefix] using hpre
      exact hp this
  | cons x t ih =>
    intro h j
    unfold findSub at h
    by_cases hp : pat.isPrefixOf (x :: t) = true
    · simp [hp] at h
    · simp [hp] at h
      cases j with
      | zero =>
        simp only [List.drop_zero]
        intro hpre
        exact hp (by simpa [List.isPrefixOf_iff_prefix] using hpre)
      | succ k =>
        simpa using ih h k

theorem findSub_complete (pat s : List Char) (i : Nat)
    (h1 : pat <+: s.drop i) (h2 : ∀ j, j < i → ¬ pat <+: s.drop j) :
    findSub pat s = some i := by
  cases hf : findSub pat s with
  | none => exact absurd h1 (findSub_eq_none pat s hf i)
  | some i' =>
    obtain ⟨g1, g2⟩ := findSub_eq_some pat s i' hf
    have hle : ¬ i' < i := fun hlt => h2 i' hlt g1
    have hge : ¬ i < i' := fun hlt => g2 i hlt h1
    have : i = i' := by omega
    simp [this]

theorem subOf_iff_findSub (pat s : List Char) :
    subOf pat s ↔ (findSub pat s).isSome = true := by
  constructor
  · rintro ⟨i, hi⟩
    cases hf : findSub pat s with
    | none => exact absurd hi (findSub_eq_none pat s hf i)
    | some j => simp
  · intro h
    cases hf : findSub pat s with
    | none => simp [hf] at h
    | some j => exact ⟨j, (findSub_eq_some pat s j hf).1⟩

/-- A prefix of length at most `n` is also a prefix of `w.take n`. -/
theorem prefix_take_of_le (u w : List Char) (n : Nat)
    (h : u <+: w) (hn : u.length ≤ n) : u <+: w.take n := by
  have := List.prefix_iff_eq_take.mp h
  rw [List.prefix_iff_eq_take]
  rw [List.take_take]
  have : u = List.take u.length w := this
  rw [Nat.min_eq_left hn]
  exact this

/-- If `pat` occurs in `a ++ pat ++ rest` strictly before position
`a.length`, then `pat` occurs inside `a ++ pat.dropLast`. -/
theorem occ_before_of_prefix (pat a rest : List Char) (hne : pat ≠ [])
    (j : Nat) (hj : j < a.length)
    (hpre : pat <+: (a ++ pat ++ rest).drop j) :
    pat <+: (a ++ pat.dropLast).drop j := by
  have hlen : 1 ≤ pat.length := by
    cases pat with
    | nil => exact absurd rfl hne
    | cons c t => simp
  -- the window `[j, j + pat.length)` fits inside the first
  -- `a.length + pat.length - 1` characters
  have htake : (a ++ pat.dropLast) = (a ++ pat ++ rest).take (a.length + (pat.length - 1)) := by
    rw [List.append_assoc, List.take_append_eq_append_take]
    have h1 : List.take (a.length + (pat.length - 1)) a = a := by
      apply List.take_of_length_le; omega
    rw [h1]
    congr 1
    have h2 : a.length + (pat.length - 1) - a.length = pat.length - 1 := by omega
    rw [h2, List.take_append_eq_append_take]
    have h3 : pat.length - 1 - pat.length = 0 := by omega
    rw [h3]
    simp [List.dropLast_eq_take]
  rw [htake, List.drop_take]
  exact prefix_take_of_le pat _ _ hpre (by omega)

/-- First-occurrence computation: when `pat` does not occur inside
`a ++ pat.dropLast`, the first occurrence of `pat` in
`a ++ pat ++ rest` is exactly at index `a.length`. -/
theorem findSub_first_occurrence (pat a rest : List Char) (hne : pat ≠ [])
    (h : ¬ subOf pat (a ++ pat.dropLast)) :
    findSub pat (a ++ pat ++ rest) = some a.length := by
  apply findSub_complete
  · have : (a ++ pat ++ rest).drop a.length = pat ++ rest := by
      rw [List.append_assoc, List.drop_append_eq_append_drop]
      simp
    rw [this]
    exact List.prefix_append pat rest
  · intro j hj hpre
    exact h ⟨j, occ_before_of_prefix pat a rest hne j hj hpre⟩

/-- Decomposition: a successful search splits the text at the match. -/
theorem findSub_decomp (pat s : List Char) (i : Nat)
    (h : findSub pat s = some i) :
    s = s.take i ++ pat ++ s.drop (i + pat.length) := by
  obtain ⟨h1, -⟩ := findSub_eq_some pat s i h
  obtain ⟨u, hu⟩ := h1
  have hdrop : s.drop (i + pat.length) = u := by
    have h2 : (s.drop i).drop pat.length = u := by
      rw [← hu]; simp
    rw [← h2, List.drop_drop]
  calc s = s.take i ++ s.drop i := (List.take_append_drop i s).symm
    _ = s.take i ++ (pat ++ u) := by rw [hu]
    _ = s.take i ++ pat ++ u := by rw [List.append_assoc]
    _ = s.take i ++ pat ++ s.drop (i + pat.length) := by rw [hdrop]

theorem extractFirstSpan_of_decomp (openTag closeTag a b c : List Char)
    (hno : openTag ≠ []) (hnc : closeTag ≠ [])
    (ha : ¬ subOf openTag (a ++ openTag.dropLast))
    (hb : ¬ subOf closeTag (b ++ closeTag.dropLast)) :
    extractFirstSpan openTag closeTag (a ++ openTag ++ b ++ closeTag ++ c)
      = (pyStrip b, true) := by
  have htext : a ++ openTag ++ b ++ closeTag ++ c
      = a ++ openTag ++ (b ++ closeTag ++ c) := by
    simp [List.append_assoc]
  rw [htext]
  have h1 : findSub openTag (a ++ openTag ++ (b ++ closeTag ++ c))
      = some a.length :=
    findSub_first_occurrence openTag a (b ++ closeTag ++ c) hno ha
  have hdrop : (a ++ openTag ++ (b ++ closeTag ++ c)).drop
      (a.length + openTag.length) = b ++ closeTag ++ c := by
    have : a.length + openTag.length = (a ++ openTag).length := by
      simp [List.length_append]
    rw [this, List.drop_left]
  have h2 : findSub closeTag (b ++ closeTag ++ c) = some b.length :=
    findSub_first_occurrence closeTag b c hnc hb
  have htake : (b ++ closeTag ++ c).take b.length = b := by
    rw [List.append_assoc, List.take_left]
  simp only [extractFirstSpan, h1, hdrop, h2, htake]

/-- C3: for every text input, the thinking-tag extraction returns the
whitespace-trimmed inner content of the first well-formed
`<thinking>...</thinking>` span (non-greedy, spanning newlines) with
`found = true` when such a span exists, and returns the original text
unchanged with `found = false` when no such span exists.  The
extraction is a total function, so it never fails with an error. -/
theorem extractThinking_spec :
    (∀ a b c : List Char,
        ¬ subOf thinkingOpen (a ++ thinkingOpen.dropLast) →
        ¬ subOf thinkingClose (b ++ thinkingClose.dropLast) →
        extractThinking (a ++ thinkingOpen ++ b ++ thinkingClose ++ c)
          = (pyStrip b, true)) ∧
    (∀ t : List Char,
        (¬ ∃ a b c : List Char,
            t = a ++ thinkingOpen ++ b ++ thinkingClose ++ c) →
        extractThinking t = (t, false)) := by
  constructor
  · intro a b c ha hb
    exact extractFirstSpan_of_decomp thinkingOpen thinkingClose a b c
      (by decide) (by decide) ha hb
  · intro t h
    unfold extractThinking extractFirstSpan
    cases hf : findSub thinkingOpen t with
    | none => rfl
    | some i =>
      cases hg : findSub thinkingClose (t.drop (i + thinkingOpen.length)) with
      | none => simp only [hg]
      | some j =>
        exfalso
        apply h
        have hd1 : t = t.take i ++ thinkingOpen
            ++ t.drop (i + thinkingOpen.length) :=
          findSub_decomp thinkingOpen t i hf
        have hd2 : t.drop (i + thinkingOpen.length)
            = (t.drop (i + thinkingOpen.length)).take j ++ thinkingClose
              ++ (t.drop (i + thinkingOpen.length)).drop
                  (j + thinkingClose.length) :=
          findSub_decomp thinkingClose (t.drop (i + thinkingOpen.length)) j hg

        refine ⟨t.take i, (t.drop (i + thinkingOpen.length)).take j,
          (t.drop (i + thinkingOpen.length)).drop (j + thinkingClose.length), ?_⟩
        conv_lhs => rw [hd1, hd2]
        simp [List.append_assoc]

/-- Concrete instance of `extractThinking_spec`: the first part applied
to a specific decomposition, with both side conditions discharged by
computation. -/
theorem extractThinking_spec_witness :
    extractThinking ("pre ".data ++ thinkingOpen ++ "  why\n".data
        ++ thinkingClose ++ " post".data)
      = ("why".data, true) := by
  have h := extractThinking_spec.1 "pre ".data "  why\n".data " post".data
    (by simp only [ subOf_iff_findSub]; decide)
    (by simp only [ subOf_iff_findSub]; decide)
  rw [h]
  decide

/-- C10: on every return path of `process_question` — reasoned mode,
direct mode, and the error path — the first element of the returned
tuple is the caller's `user_prompt`, unchanged. -/
theorem processQuestion_userPrompt_preserved (registry : List String)
    (gw : Gateway) (cotRefl : CotFn) (file : Option (Option String))
    (up sp cp model : String) (b : Bool) :
    (processQuestion registry gw cotRefl file up sp cp model b).1.userPrompt
      = up := by
  unfold processQuestion
  dsimp only
  split
  · rfl
  · split
    · rfl
    · split
      · split
        · rfl
        · split
          · rfl
          · rfl
      · split
        · rfl
        · rfl

/-- C4: when the selected model is not in the registry,
`process_question` returns the failure tuple at once, issuing no
backend call (empty call log) and doing no document work (the result
is the same whatever the uploaded file is). -/
theorem processQuestion_unknown_model (registry : List String)
    (gw : Gateway) (cotRefl : CotFn) (file : Option (Option String))
    (up sp cp model : String) (b : Bool) (h : model ∉ registry) :
    processQuestion registry gw cotRefl file up sp cp model b
      = (errorOutput up ("Invalid model selected: " ++ model), []) := by
  unfold processQuestion
  rw [if_pos h]

/-- Concrete instance of `processQuestion_unknown_model`: an
unregistered model name, together with an unreadable uploaded file,
still yields the invalid-model failure and an empty call log. -/
theorem processQuestion_unknown_model_witness :
    processQuestion ["Gemini 2.0 Flash"] (fun _ _ => .ok "4")
      (fun _ _ _ _ _ => (.ok ("", "", ""), [])) (some none)
      "What is 2+2?" "sp" "cp" "Claude" true
      = (errorOutput "What is 2+2?" "Invalid model selected: Claude", []) :=
  processQuestion_unknown_model _ _ _ _ _ _ _ _ _ (by decide)

/-- Counterexample to C2 as stated: in direct mode with a successful
backend, the backend response is returned in the initial-response
position of the tuple, while the final-output position is the empty
string — so `final_answer` does not equal the backend response. -/
theorem directMode_final_answer_counterexample :
    let r := (processQuestion ["m"] (fun _ _ => .ok "RESP")
      (fun _ _ _ _ _ => (.ok ("", "", ""), [])) none
      "q" "sp" "cp" "m" false).1
    r.finalOutput = "" ∧ r.initialResponse = "RESP"
      ∧ ¬ r.finalOutput = "RESP" := by
  decide

/-- C2 amended: in direct mode with a valid model, a readable (or
absent) document and a successful backend, `process_question` makes a
single backend call and returns a tuple whose thinking, reflection and
final-output fields are empty, whose initial-response field equals the
single backend response, and whose chain-of-thought prompt echo is
absent. -/
theorem directMode_spec (registry : List String) (gw : Gateway)
    (cotRefl : CotFn) (file : Option (Option String))
    (up sp cp model : String) (dc : Option String) (resp : String)
    (hm : model ∈ registry) (hf : readDocument file = .ok dc)
    (hg : gw model (directResponsePrompt sp (docBlock dc) up) = .ok resp) :
    processQuestion registry gw cotRefl file up sp cp model false
      = (⟨up, resp, "", "", "", some sp, none⟩,
         [(model, directResponsePrompt sp (docBlock dc) up)]) := by
  unfold processQuestion
  rw [if_neg (not_not_intro hm), hf]
  dsimp only
  rw [hg]
  rfl

/-- Concrete instance of `directMode_spec` on the specification's own
scenario: registered model, question `"What is 2+2?"`, no document,
direct mode. -/
theorem directMode_spec_witness :
    processQuestion ["Gemini 2.0 Flash"] (fun _ _ => .ok "The answer is 4.")
      (fun _ _ _ _ _ => (.ok ("", "", ""), [])) none
      "What is 2+2?" "sp" "cp" "Gemini 2.0 Flash" false
      = (⟨"What is 2+2?", "The answer is 4.", "", "", "", some "sp", none⟩,
         [("Gemini 2.0 Flash",
           directResponsePrompt "sp" (docBlock none) "What is 2+2?")]) :=
  directMode_spec _ _ _ _ _ _ _ _ none "The answer is 4."
    (by decide) rfl rfl

/-- Counterexample to C1 as stated: on the error path the
human-readable error description is carried by the initial-response
position of the tuple, while the final-output position is empty — not
the other way round. -/
theorem errorPath_counterexample :
    let r := (processQuestion ([] : List String) (fun _ _ => .ok "x")
      (fun _ _ _ _ _ => (.ok ("", "", ""), [])) none
      "q" "sp" "cp" "m" true).1
    r.initialResponse = "An error occurred: Invalid model selected: m"
      ∧ r.finalOutput = "" ∧ ¬ r.initialResponse = "" := by
  decide

/-- C1 amended: every error — an invalid/unregistered model, an
unreadable document, a failing backend call in either mode, or a
failure inside the combined reasoning call — is caught at the
`process_question` boundary and converted into a tuple whose
initial-response field carries the human-readable description
`"An error occurred: ..."` and whose thinking, reflection and
final-output fields are empty; the embedding is a total function, so
no exception propagates to the caller. -/
theorem errorPath_spec (registry : List String) (gw : Gateway)
    (cotRefl : CotFn) (file : Option (Option String))
    (up sp cp model : String) :
    (∀ b, model ∉ registry →
      processQuestion registry gw cotRefl file up sp cp model b
        = (errorOutput up ("Invalid model selected: " ++ model), [])) ∧
    (∀ b e, model ∈ registry → readDocument file = .error e →
      processQuestion registry gw cotRefl file up sp cp model b
        = (errorOutput up e, [])) ∧
    (∀ dc e, model ∈ registry → readDocument file = .ok dc →
      gw model (initialResponsePrompt sp (docBlock dc) up) = .error e →
      processQuestion registry gw cotRefl file up sp cp model true
        = (errorOutput up e,
           [(model, initialResponsePrompt sp (docBlock dc) up)])) ∧
    (∀ dc r e calls, model ∈ registry → readDocument file = .ok dc →
      gw model (initialResponsePrompt sp (docBlock dc) up) = .ok r →
      cotRefl sp cp up dc model = (.error e, calls) →
      processQuestion registry gw cotRefl file up sp cp model true
        = (errorOutput up e,
           (model, initialResponsePrompt sp (docBlock dc) up) :: calls)) ∧
    (∀ dc e, model ∈ registry → readDocument file = .ok dc →
      gw model (directResponsePrompt sp (docBlock dc) up) = .error e →
      processQuestion registry gw cotRefl file up sp cp model false
        = (errorOutput up e,
           [(model, directResponsePrompt sp (docBlock dc) up)])) := by
  refine ⟨?_, ?_, ?_, ?_, ?_⟩
  · intro b h
    unfold processQuestion
    rw [if_pos h]
  · intro b e hm hf
    unfold processQuestion
    rw [if_neg (not_not_intro hm), hf]
  · intro dc e hm hf hg
    unfold processQuestion
    rw [if_neg (not_not_intro hm), hf]
    dsimp only
    rw [hg]
    rfl
  · intro dc r e calls hm hf hg hc
    unfold processQuestion
    rw [if_neg (not_not_intro hm), hf]
    dsimp only
    rw [hg]
    dsimp only
    rw [hc]
    rfl
  · intro dc e hm hf hg
    unfold processQuestion
    rw [if_neg (not_not_intro hm), hf]
    dsimp only
    rw [hg]
    rfl

/-- Concrete instance of `errorPath_spec`: a failing backend call in
reasoned mode is converted into the error tuple, whose
initial-response field carries the description and whose other text
fields are empty. -/
theorem errorPath_spec_witness :
    processQuestion ["m"] (fun _ _ => .error "boom")
      (fun _ _ _ _ _ => (.ok ("", "", ""), [])) none
      "q" "sp" "cp" "m" true
      = (errorOutput "q" "boom",
         [("m", initialResponsePrompt "sp" (docBlock none) "q")]) :=
  (errorPath_spec ["m"] (fun _ _ => .error "boom")
    (fun _ _ _ _ _ => (.ok ("", "", ""), [])) none
    "q" "sp" "cp" "m").2.2.1 none "boom" (by decide) rfl rfl

/-- C9: for every input and every database behaviour,
`load_snapshot_by_id` returns a 10-element list whose last element is
a status message, and the four cases — empty id, non-numeric id,
missing record, found record — produce exactly the documented values;
the embedding is a total function, so it never raises. -/
theorem loadSnapshotById_spec (g : Int → Option SnapRecord)
    (snapshotId : String) :
    (loadSnapshotById g snapshotId).length = 10 ∧
    (∃ m, (loadSnapshotById g snapshotId).getLast? = some (some m)) ∧
    (snapshotId = "" →
      loadSnapshotById g snapshotId
        = List.replicate 9 none ++ [some loadMsgEmpty]) ∧
    (snapshotId ≠ "" → pyInt snapshotId = none →
      loadSnapshotById g snapshotId
        = List.replicate 9 none ++ [some loadMsgInvalid]) ∧
    (∀ n, snapshotId ≠ "" → pyInt snapshotId = some n → g n = none →
      loadSnapshotById g snapshotId
        = List.replicate 9 none ++ [some loadMsgNotFound]) ∧
    (∀ n s, snapshotId ≠ "" → pyInt snapshotId = some n → g n = some s →
      loadSnapshotById g snapshotId
        = [some s.snapshot_name, some s.user_prompt, some s.system_prompt,
           some s.model_name, some s.cot_prompt, some s.initial_response,
           some s.thinking, some s.reflection, some s.final_response,
           some loadMsgSuccess]) := by
  refine ⟨?_, ?_, ?_, ?_, ?_, ?_⟩
  · unfold loadSnapshotById
    split
    · rfl
    · split
      · rfl
      · split
        · rfl
        · rfl
  · unfold loadSnapshotById
    split
    · exact ⟨loadMsgEmpty, rfl⟩
    · split
      · exact ⟨loadMsgInvalid, rfl⟩
      · split
        · exact ⟨loadMsgNotFound, rfl⟩
        · exact ⟨loadMsgSuccess, rfl⟩
  · intro h
    simp [loadSnapshotById, h]
  · intro h hn
    simp [loadSnapshotById, h, hn]
  · intro n h hn hg
    simp [loadSnapshotById, h, hn, hg]
  · intro n s h hn hg
    simp [loadSnapshotById, h, hn, hg]

/-- Concrete instance of `loadSnapshotById_spec`: the found-record
case at id `"3"` against a one-record database. -/
theorem loadSnapshotById_spec_witness :
    loadSnapshotById
      (fun n => if n = 3 then
        some ⟨"nm", "up", "sp", "md", "cp", "ir", "th", "re", "fr", "tg"⟩
        else none) "3"
      = [some "nm", some "up", some "sp", some "md", some "cp",
         some "ir", some "th", some "re", some "fr", some loadMsgSuccess] :=
  (loadSnapshotById_spec
      (fun n => if n = 3 then
        some ⟨"nm", "up", "sp", "md", "cp", "ir", "th", "re", "fr", "tg"⟩
        else none) "3").2.2.2.2.2 3
    ⟨"nm", "up", "sp", "md", "cp", "ir", "th", "re", "fr", "tg"⟩
    (by decide) (by decide) (by decide)

theorem storeWF_empty : StoreWF SnapshotDB.empty := by
  refine ⟨?_, ?_, ?_, ?_⟩ <;> simp [SnapshotDB.empty, StoreWF]

theorem storeWF_save (db : SnapshotDB) (r : SnapRecord)
    (h : StoreWF db) : StoreWF (save_snapshot db r).2 := by
  obtain ⟨h1, h2, h3, h4⟩ := h
  refine ⟨?_, ?_, ?_, ?_⟩
  · intro x hx
    simp only [save_snapshot, List.mem_append, List.mem_singleton] at hx ⊢
    rcases hx with hx | rfl
    · exact Nat.lt_succ_of_lt (h1 x hx)
    · exact Nat.lt_succ_self _
  · intro x hx
    simp only [save_snapshot, List.mem_append, List.mem_singleton] at hx ⊢
    rcases hx with hx | rfl
    · exact Nat.le_succ_of_le (h2 x hx)
    · exact Nat.le_refl _
  · simp only [save_snapshot]
    rw [List.pairwise_append]
    refine ⟨h3, List.pairwise_singleton _ _, ?_⟩
    intro x hx y hy
    simp only [List.mem_singleton] at hy
    subst hy
    exact h1 x hx
  · simp only [save_snapshot]
    rw [List.pairwise_append]
    refine ⟨h4, List.pairwise_singleton _ _, ?_⟩
    intro x hx y hy
    simp only [List.mem_singleton] at hy
    subst hy
    exact Nat.lt_succ_of_le (h2 x hx)

theorem storeWF_delete (db : SnapshotDB) (i : Nat)
    (h : StoreWF db) : StoreWF (delete_snapshot db i).2 := by
  obtain ⟨h1, h2, h3, h4⟩ := h
  refine ⟨?_, ?_, ?_, ?_⟩
  · intro x hx
    exact h1 x (List.mem_of_mem_filter hx)
  · intro x hx
    exact h2 x (List.mem_of_mem_filter hx)
  · exact List.Pairwise.filter _ h3
  · exact List.Pairwise.filter _ h4

theorem storeWF_applyOp (db : SnapshotDB) (op : StoreOp)
    (h : StoreWF db) : StoreWF (applyOp db op) := by
  cases op with
  | save r => exact storeWF_save db r h
  | delete i => exact storeWF_delete db i h

theorem storeWF_runOps (ops : List StoreOp) :
    ∀ db : SnapshotDB, StoreWF db → StoreWF (runOps db ops) := by
  induction ops with
  | nil => intro db h; exact h
  | cons op ops ih =>
    intro db h
    exact ih (applyOp db op) (storeWF_applyOp db op h)

theorem nextId_le_applyOp (db : SnapshotDB) (op : StoreOp) :
    db.nextId ≤ (applyOp db op).nextId := by
  cases op with
  | save r => exact Nat.le_succ _
  | delete i => exact Nat.le_refl _

theorem savedIds_lower_bound (ops : List StoreOp) :
    ∀ db : SnapshotDB, ∀ i ∈ savedIds db ops, db.nextId ≤ i := by
  induction ops with
  | nil => intro db i hi; simp [savedIds] at hi
  | cons op ops ih =>
    intro db i hi
    cases op with
    | save r =>
      simp only [savedIds, List.mem_cons] at hi
      rcases hi with rfl | hi
      · exact Nat.le_refl _
      · exact Nat.le_trans (nextId_le_applyOp db (.save r)) (ih _ i hi)
    | delete j =>
      simp only [savedIds] at hi
      exact Nat.le_trans (nextId_le_applyOp db (.delete j)) (ih _ i hi)

theorem savedIds_pairwise (ops : List StoreOp) :
    ∀ db : SnapshotDB, (savedIds db ops).Pairwise (· < ·) := by
  induction ops with
  | nil => intro db; simp [savedIds]
  | cons op ops ih =>
    intro db
    cases op with
    | save r =>
      simp only [savedIds]
      rw [List.pairwise_cons]
      refine ⟨?_, ih _⟩
      intro i hi
      have := savedIds_lower_bound ops (applyOp db (.save r)) i hi
      simp only [applyOp, save_snapshot] at this
      exact Nat.lt_of_succ_le this
    | delete j =>
      simp only [savedIds]
      exact ih _

/-- C5: across every sequence of operations within one store lifetime,
the identifiers returned by successive saves are strictly increasing —
hence never reused, even after deletions — and in the state reached no
two stored records share an identifier. -/
theorem snapshot_ids_strictly_increasing (ops : List StoreOp) :
    (savedIds SnapshotDB.empty ops).Pairwise (· < ·) ∧
    ((runOps SnapshotDB.empty ops).rows).Pairwise
      (fun x y => x.id ≠ y.id) := by
  constructor
  · exact savedIds_pairwise ops SnapshotDB.empty
  · have h := (storeWF_runOps ops SnapshotDB.empty storeWF_empty).2.2.1
    exact h.imp Nat.ne_of_lt

/-- C6: deleting an id removes it (a subsequent lookup misses), a
second delete of the same id reports `false`, and the first delete
reports `true` exactly when a record with that id was stored — so
deleting a non-existent id reports `false` and is never an error. -/
theorem delete_get_delete_spec (db : SnapshotDB) (i : Nat) :
    get_snapshot_by_id (delete_snapshot db i).2 i = none ∧
    (delete_snapshot (delete_snapshot db i).2 i).1 = false ∧
    ((delete_snapshot db i).1 = true ↔ ∃ r ∈ db.rows, r.id = i) := by
  refine ⟨?_, ?_, ?_⟩
  · rw [get_snapshot_by_id, List.find?_eq_none]
    intro x hx
    simp only [delete_snapshot, List.mem_filter] at hx
    simpa using hx.2
  · simp only [delete_snapshot, List.any_eq_true, not_exists]
    rw [Bool.eq_false_iff]
    intro hcon
    rw [List.any_eq_true] at hcon
    obtain ⟨x, hx, hxi⟩ := hcon
    rw [List.mem_filter] at hx
    rw [beq_iff_eq] at hxi
    have := hx.2
    rw [hxi] at this
    simp at this
  · rw [delete_snapshot, List.any_eq_true]
    constructor
    · rintro ⟨x, hx, hxi⟩
      exact ⟨x, hx, by simpa using hxi⟩
    · rintro ⟨x, hx, hxi⟩
      exact ⟨x, hx, by simpa using hxi⟩

/-- C7: saving a record and exporting the freshly assigned id yields
the stored row whose content equals, field for field, the record that
was saved — a lossless round-trip up to the store-assigned id and
timestamp. -/
theorem save_export_roundtrip (db : SnapshotDB) (r : SnapRecord)
    (h : ∀ x ∈ db.rows, x.id < db.nextId) :
    export_snapshot (save_snapshot db r).2 (save_snapshot db r).1
      = some ⟨db.nextId, db.clock + 1, r⟩ := by
  unfold export_snapshot get_snapshot_by_id save_snapshot
  dsimp only
  rw [List.find?_append]
  have hnone : db.rows.find? (fun x => x.id == db.nextId) = none := by
    rw [List.find?_eq_none]
    intro x hx
    have := h x hx
    simp only [beq_iff_eq]
    omega
  rw [hnone]
  simp

/-- Concrete instance of `save_export_roundtrip` on the empty store. -/
theorem save_export_roundtrip_witness :
    export_snapshot
      (save_snapshot SnapshotDB.empty
        ⟨"nm", "up", "sp", "md", "cp", "ir", "th", "re", "fr", "tg"⟩).2
      (save_snapshot SnapshotDB.empty
        ⟨"nm", "up", "sp", "md", "cp", "ir", "th", "re", "fr", "tg"⟩).1
      = some ⟨1, 1, ⟨"nm", "up", "sp", "md", "cp", "ir", "th", "re", "fr", "tg"⟩⟩ :=
  save_export_roundtrip SnapshotDB.empty
    ⟨"nm", "up", "sp", "md", "cp", "ir", "th", "re", "fr", "tg"⟩
    (by intro x hx; simp [SnapshotDB.empty] at hx)

/-- C8: on a well-ordered store, listing with an empty term returns
all snapshots newest-first (creation time strictly descending), and
listing with a non-empty term returns exactly the snapshots whose
name, question or tag list contains the term case-insensitively, in
the same descending order. -/
theorem get_snapshots_spec (db : SnapshotDB) (term : String)
    (hwf : db.rows.Pairwise (fun x y => x.created_at < y.created_at)) :
    (get_snapshots db term).Pairwise
      (fun x y => y.created_at < x.created_at) ∧
    (term = "" → get_snapshots db term = db.rows.reverse) ∧
    (term ≠ "" → ∀ r, r ∈ get_snapshots db term ↔
      r ∈ db.rows ∧ snapMatches term r = true) := by
  refine ⟨?_, ?_, ?_⟩
  · unfold get_snapshots
    rw [List.pairwise_reverse]
    split
    · exact hwf
    · exact List.Pairwise.filter _ hwf
  · intro h
    simp [get_snapshots, h]
  · intro h r
    simp [get_snapshots, h, List.mem_filter]

/-- Concrete instance of `get_snapshots_spec`: a two-record store
searched for a term present only in the tags of the older record. -/
theorem get_snapshots_spec_witness :
    get_snapshots
      ⟨3, 2,
       [⟨1, 1, ⟨"a", "qa", "sp", "md", "cp", "ir", "th", "re", "fr", "Alpha, Beta"⟩⟩,
        ⟨2, 2, ⟨"b", "qb", "sp", "md", "cp", "ir", "th", "re", "fr", "gamma"⟩⟩]⟩
      "alpha"
      = [⟨1, 1, ⟨"a", "qa", "sp", "md", "cp", "ir", "th", "re", "fr", "Alpha, Beta"⟩⟩]
    ∧ (⟨1, 1, ⟨"a", "qa", "sp", "md", "cp", "ir", "th", "re", "fr", "Alpha, Beta"⟩⟩ : StoredSnap)
        ∈ get_snapshots
          ⟨3, 2,
           [⟨1, 1, ⟨"a", "qa", "sp", "md", "cp", "ir", "th", "re", "fr", "Alpha, Beta"⟩⟩,
            ⟨2, 2, ⟨"b", "qb", "sp", "md", "cp", "ir", "th", "re", "fr", "gamma"⟩⟩]⟩
          "alpha" := by
  constructor
  · decide
  · have h := (get_snapshots_spec
      ⟨3, 2,
       [⟨1, 1, ⟨"a", "qa", "sp", "md", "cp", "ir", "th", "re", "fr", "Alpha, Beta"⟩⟩,
        ⟨2, 2, ⟨"b", "qb", "sp", "md", "cp", "ir", "th", "re", "fr", "gamma"⟩⟩]⟩
      "alpha" (by simp)).2.2 (by decide)
        ⟨1, 1, ⟨"a", "qa", "sp", "md", "cp", "ir", "th", "re", "fr", "Alpha, Beta"⟩⟩
    exact h.mpr (by decide)

end Reflection
